import Mathlib

/-!
Shallow embedding of the PF-SimPy asset-pipeline simulation
(src/simpy4.py, with the cohort arrival variant of src/simpy6.py).

The Python scripts drive each asset through an ordered list of phases using
SimPy generator processes.  All randomness comes from calls to the process-wide
`random` module (`random.uniform` for the arrival offset, `random.random` for
each phase outcome); with a fixed seed that module produces a fixed sequence of
draws, so the embedding abstracts the random stream as explicit inputs: the
arrival time of each asset and, per asset, the sequence of unit-interval values
returned to it by `random.random()` (one per phase attempt).  Simulated times
and probabilities are modelled as rationals.
-/

namespace PFSimPy

/-- Outcome string stored in each record: `"SUCCESS"` or `"FAILURE"`
(simpy4.py line 51). -/
inductive Outcome where
  | SUCCESS : Outcome
  | FAILURE : Outcome
deriving DecidableEq, Repr

/-- One entry of the phase table: `{"name": ..., "duration": ..., "success_prob": ...}`
(simpy4.py lines 23-31). -/
structure Phase where
  name : String
  duration : ℚ
  success_prob : ℚ
deriving DecidableEq, Repr

/-- One row appended to `records` for each completed phase attempt
(simpy4.py lines 57-68). -/
structure Record where
  replication : ℕ
  asset_id : ℕ
  phase : String
  phase_idx : ℕ
  phase_duration : ℚ
  phase_success_prob : ℚ
  phase_start_time : ℚ
  phase_end_time : ℚ
  phase_outcome : Outcome
  asset_init_time : ℚ
deriving DecidableEq, Repr

/-- One value of the per-asset `phase_results` dict (simpy4.py lines 52-56). -/
structure PhaseResult where
  start_time : ℚ
  end_time : ℚ
  outcome : Outcome
deriving DecidableEq, Repr

/-- The phase table hard-coded in `SIMULATION_DETAILS` (simpy4.py lines 21-32;
the same literal appears in simpy2.py and simpy6.py). -/
def SIMULATION_DETAILS_phases : List Phase :=
  [⟨"ID1", 10, 95/100⟩,
   ⟨"ID2", 12, 90/100⟩,
   ⟨"Ph1", 52, 5/10⟩,
   ⟨"Ph2A", 52, 6/10⟩,
   ⟨"Ph2B", 52, 7/10⟩,
   ⟨"Ph3", 104, 5/10⟩,
   ⟨"File", 26, 9/10⟩]

/-- The `for idx, phase in enumerate(...)` loop of `asset_trajectory`
(simpy4.py lines 44-72), from the point where the asset has arrived.
Arguments mirror the Python state: `start_time` is the arrival draw (stored in
every record as `asset_init_time`), `draws idx` is the value `random.random()`
returns when the phase at absolute index `idx` completes, `current_time` is the
running variable of the same name, and the list argument is the suffix of the
phase table not yet attempted.  Each iteration advances `env.now` by the phase
duration (`yield env.timeout(phase["duration"])`), decides
`success = random.random() < phase["success_prob"]`, stores a `phase_results`
entry and appends a `Record`; on failure the `if not success: break` at the top
of the next iteration stops the loop. -/
def trajLoop (replication_id asset_id : ℕ) (start_time : ℚ) (draws : ℕ → ℚ) :
    ℕ → ℚ → List Phase → List Record × List (String × PhaseResult)
  | _, _, [] => ([], [])
  | idx, current_time, p :: rest =>
    let end_time := current_time + p.duration
    let success := draws idx < p.success_prob
    let outcome := if success then Outcome.SUCCESS else Outcome.FAILURE
    let rec0 : Record :=
      ⟨replication_id, asset_id, p.name, idx, p.duration, p.success_prob,
       current_time, end_time, outcome, start_time⟩
    let pres : String × PhaseResult := (p.name, ⟨current_time, end_time, outcome⟩)
    if success then
      let tail := trajLoop replication_id asset_id start_time draws (idx + 1) end_time rest
      (rec0 :: tail.1, pres :: tail.2)
    else
      ([rec0], [pres])

/-- `asset_trajectory` (simpy4.py lines 34-74) for one asset, given its arrival
time and its per-phase draws.  The process starts at simulated time 0 and
`yield env.timeout(start_time)` makes `env.now = start_time` when the loop
begins, so both the initial `current_time` and the stored `asset_init_time`
equal `start_time`.  Returns the records the asset appends (in emission order)
and its `phase_results` entry (insertion-ordered association list). -/
def asset_trajectory (phases : List Phase) (replication_id asset_id : ℕ)
    (start_time : ℚ) (draws : ℕ → ℚ) :
    List Record × List (String × PhaseResult) :=
  trajLoop replication_id asset_id start_time draws 0 start_time phases

/-- `run_simulation` (simpy4.py lines 76-83): creates one process per
`asset_id in range(1, num_assets + 1)` and runs the environment until its event
queue is empty, which drives every trajectory to completion.  The function
never raises: it always returns the `results` dict (here an association list in
asset order; the Python dict is keyed by the same ids) and the shared `records`
list.  The single process-global random stream is abstracted as `arrivals i`
(the `random.uniform` arrival draw of asset `i`) and `draws i idx` (the
`random.random()` value asset `i` observes at phase `idx`); in the source the
draws interleave across assets in event order, which permutes record rows
across assets but leaves each asset's own record subsequence unchanged. -/
def run_simulation (phases : List Phase) (num_assets replication_id : ℕ)
    (arrivals : ℕ → ℚ) (draws : ℕ → ℕ → ℚ) :
    List (ℕ × List (String × PhaseResult)) × List Record :=
  let ids := List.range' 1 num_assets
  (ids.map fun i =>
      (i, (asset_trajectory phases replication_id i (arrivals i) (draws i)).2),
   ids.flatMap fun i =>
      (asset_trajectory phases replication_id i (arrivals i) (draws i)).1)

/-- `ASSETS_PER_YEAR` (simpy6.py line 19). -/
def ASSETS_PER_YEAR : ℕ := 50

/-- The cohort year of an asset: `year = (asset_id - 1) // ASSETS_PER_YEAR`
(simpy6.py line 42). -/
def assetYear (asset_id : ℕ) : ℕ := (asset_id - 1) / ASSETS_PER_YEAR

/-- The cohort arrival time of simpy6.py lines 42-44:
`year_start = year * 52; start_time = year_start + random.uniform(0, 52)`,
where `u` stands for the `random.uniform(0, 52)` draw. -/
def cohortStartTime (asset_id : ℕ) (u : ℚ) : ℚ :=
  (assetYear asset_id : ℚ) * 52 + u

/-- Result of loading the phase table.  The spec's §4.1 contract names a
`ConfigurationError`; the constructor is present so the type can express
failure, but the source never produces it. -/
inductive ConfigResult where
  | ok : List Phase → ConfigResult
  | configurationError : ConfigResult
deriving DecidableEq, Repr

/-- Construction of the phase table as the source performs it: the module-level
assignment `SIMULATION_DETAILS = {...}` (simpy4.py lines 21-32) binds the
literal directly.  No validation code exists anywhere in the repository and no
`ConfigurationError` is ever raised, so loading any table returns it
unchanged. -/
def loadPhaseTable (ps : List Phase) : ConfigResult := ConfigResult.ok ps

/-- Validity of a phase table in the words of spec §4.1: every duration
strictly positive, every success probability in `[0,1]`, names unique and
non-empty, at least one phase.  Stated from the spec, not from the source: the
source contains no such check, and this predicate is what claim C9 asserts the
code enforces. -/
def specValidPhaseTable (ps : List Phase) : Bool :=
  (ps.all fun p =>
    decide (0 < p.duration) && decide (0 ≤ p.success_prob) &&
    decide (p.success_prob ≤ 1) && !(p.name == "")) &&
  decide ((ps.map Phase.name).Nodup) && !ps.isEmpty

/-! Unfolding lemmas for `trajLoop`. -/

/-- Running the loop with no phases left emits nothing. -/
theorem trajLoop_nil (r a : ℕ) (st : ℚ) (d : ℕ → ℚ) (idx : ℕ) (ct : ℚ) :
    trajLoop r a st d idx ct [] = ([], []) := rfl

/-- Unfolding of one successful iteration. -/
theorem trajLoop_cons_success (r a : ℕ) (st : ℚ) (d : ℕ → ℚ) (idx : ℕ) (ct : ℚ)
    (p : Phase) (rest : List Phase) (h : d idx < p.success_prob) :
    trajLoop r a st d idx ct (p :: rest) =
      (⟨r, a, p.name, idx, p.duration, p.success_prob, ct, ct + p.duration,
          Outcome.SUCCESS, st⟩ ::
        (trajLoop r a st d (idx + 1) (ct + p.duration) rest).1,
       (p.name, ⟨ct, ct + p.duration, Outcome.SUCCESS⟩) ::
        (trajLoop r a st d (idx + 1) (ct + p.duration) rest).2) := by
  simp [trajLoop, h]

/-- Unfolding of one failing iteration: the loop stops. -/
theorem trajLoop_cons_failure (r a : ℕ) (st : ℚ) (d : ℕ → ℚ) (idx : ℕ) (ct : ℚ)
    (p : Phase) (rest : List Phase) (h : ¬ d idx < p.success_prob) :
    trajLoop r a st d idx ct (p :: rest) =
      ([⟨r, a, p.name, idx, p.duration, p.success_prob, ct, ct + p.duration,
          Outcome.FAILURE, st⟩],
       [(p.name, ⟨ct, ct + p.duration, Outcome.FAILURE⟩)]) := by
  simp [trajLoop, h]

/-! Structural lemmas about the records a single trajectory emits. -/

/-- Every record emitted by the loop carries the asset id it was called with. -/
theorem trajLoop_asset_id (r a : ℕ) (st : ℚ) (d : ℕ → ℚ) :
    ∀ (ps : List Phase) (idx : ℕ) (ct : ℚ) (rc : Record),
      rc ∈ (trajLoop r a st d idx ct ps).1 → rc.asset_id = a := by
  intro ps
  induction ps with
  | nil => intro idx ct rc h; simp [trajLoop_nil] at h
  | cons p rest ih =>
    intro idx ct rc h
    by_cases hs : d idx < p.success_prob
    · rw [trajLoop_cons_success r a st d idx ct p rest hs] at h
      rcases List.mem_cons.mp h with h0 | h1
      · subst h0; rfl
      · exact ih (idx + 1) (ct + p.duration) rc h1
    · rw [trajLoop_cons_failure r a st d idx ct p rest hs] at h
      rcases List.mem_cons.mp h with h0 | h1
      · subst h0; rfl
      · simp at h1

/-- A nonempty phase list makes the loop emit at least one record. -/
theorem trajLoop_ne_nil (r a : ℕ) (st : ℚ) (d : ℕ → ℚ) (idx : ℕ) (ct : ℚ)
    (p : Phase) (rest : List Phase) :
    (trajLoop r a st d idx ct (p :: rest)).1 ≠ [] := by
  by_cases hs : d idx < p.success_prob
  · rw [trajLoop_cons_success r a st d idx ct p rest hs]; simp
  · rw [trajLoop_cons_failure r a st d idx ct p rest hs]; simp

/-- The first record the loop emits starts at the running clock value and
stores the arrival time. -/
theorem trajLoop_head (r a : ℕ) (st : ℚ) (d : ℕ → ℚ) (ps : List Phase)
    (idx : ℕ) (ct : ℚ) (rc : Record)
    (h : ((trajLoop r a st d idx ct ps).1)[0]? = some rc) :
    rc.phase_start_time = ct ∧ rc.asset_init_time = st := by
  cases ps with
  | nil => simp [trajLoop_nil] at h
  | cons p rest =>
    by_cases hs : d idx < p.success_prob
    · rw [trajLoop_cons_success r a st d idx ct p rest hs] at h
      simp at h
      subst h; exact ⟨rfl, rfl⟩
    · rw [trajLoop_cons_failure r a st d idx ct p rest hs] at h
      simp at h
      subst h; exact ⟨rfl, rfl⟩

/-- The k-th record the loop emits is for absolute phase index `idx + k`. -/
theorem trajLoop_phase_idx (r a : ℕ) (st : ℚ) (d : ℕ → ℚ) :
    ∀ (ps : List Phase) (idx : ℕ) (ct : ℚ) (k : ℕ) (rc : Record),
      ((trajLoop r a st d idx ct ps).1)[k]? = some rc → rc.phase_idx = idx + k := by
  intro ps
  induction ps with
  | nil => intro idx ct k rc h; simp [trajLoop_nil] at h
  | cons p rest ih =>
    intro idx ct k rc h
    by_cases hs : d idx < p.success_prob
    · rw [trajLoop_cons_success r a st d idx ct p rest hs] at h
      cases k with
      | zero => simp at h; subst h; rfl
      | succ k =>
        rw [List.getElem?_cons_succ] at h
        have := ih (idx + 1) (ct + p.duration) k rc h
        omega
    · rw [trajLoop_cons_failure r a st d idx ct p rest hs] at h
      cases k with
      | zero => simp at h; subst h; rfl
      | succ k => simp at h

/-- Consecutive records of one trajectory chain up: each starts where the
previous one ended. -/
theorem trajLoop_chain (r a : ℕ) (st : ℚ) (d : ℕ → ℚ) :
    ∀ (ps : List Phase) (idx : ℕ) (ct : ℚ) (k : ℕ) (r1 r2 : Record),
      ((trajLoop r a st d idx ct ps).1)[k]? = some r1 →
      ((trajLoop r a st d idx ct ps).1)[k + 1]? = some r2 →
      r2.phase_start_time = r1.phase_end_time := by
  intro ps
  induction ps with
  | nil => intro idx ct k r1 r2 h1 h2; simp [trajLoop_nil] at h1
  | cons p rest ih =>
    intro idx ct k r1 r2 h1 h2
    by_cases hs : d idx < p.success_prob
    · rw [trajLoop_cons_success r a st d idx ct p rest hs] at h1 h2
      cases k with
      | zero =>
        simp at h1
        rw [List.getElem?_cons_succ] at h2
        have hd := trajLoop_head r a st d rest (idx + 1) (ct + p.duration) r2 h2
        subst h1
        simpa using hd.1
      | succ k =>
        rw [List.getElem?_cons_succ] at h1 h2
        exact ih (idx + 1) (ct + p.duration) k r1 r2 h1 h2
    · rw [trajLoop_cons_failure r a st d idx ct p rest hs] at h2
      cases k with
      | zero => simp at h2
      | succ k => simp at h2

/-- A FAILURE record ends its trajectory: it is the last record emitted. -/
theorem trajLoop_failure_last (r a : ℕ) (st : ℚ) (d : ℕ → ℚ) :
    ∀ (ps : List Phase) (idx : ℕ) (ct : ℚ) (k : ℕ) (rc : Record),
      ((trajLoop r a st d idx ct ps).1)[k]? = some rc →
      rc.phase_outcome = Outcome.FAILURE →
      (trajLoop r a st d idx ct ps).1.length = k + 1 := by
  intro ps
  induction ps with
  | nil => intro idx ct k rc h hf; simp [trajLoop_nil] at h
  | cons p rest ih =>
    intro idx ct k rc h hf
    by_cases hs : d idx < p.success_prob
    · rw [trajLoop_cons_success r a st d idx ct p rest hs] at h ⊢
      cases k with
      | zero => simp at h; subst h; simp at hf
      | succ k =>
        rw [List.getElem?_cons_succ] at h
        have := ih (idx + 1) (ct + p.duration) k rc h hf
        simp [this]
    · rw [trajLoop_cons_failure r a st d idx ct p rest hs] at h ⊢
      cases k with
      | zero => rfl
      | succ k => simp at h

/-- Each record's end time is its start time plus its stored duration. -/
theorem trajLoop_end_time (r a : ℕ) (st : ℚ) (d : ℕ → ℚ) :
    ∀ (ps : List Phase) (idx : ℕ) (ct : ℚ) (k : ℕ) (rc : Record),
      ((trajLoop r a st d idx ct ps).1)[k]? = some rc →
      rc.phase_end_time = rc.phase_start_time + rc.phase_duration := by
  intro ps
  induction ps with
  | nil => intro idx ct k rc h; simp [trajLoop_nil] at h
  | cons p rest ih =>
    intro idx ct k rc h
    by_cases hs : d idx < p.success_prob
    · rw [trajLoop_cons_success r a st d idx ct p rest hs] at h
      cases k with
      | zero => simp at h; subst h; rfl
      | succ k =>
        rw [List.getElem?_cons_succ] at h
        exact ih (idx + 1) (ct + p.duration) k rc h
    · rw [trajLoop_cons_failure r a st d idx ct p rest hs] at h
      cases k with
      | zero => simp at h; subst h; rfl
      | succ k => simp at h

/-- The k-th record's stored duration is the duration of the k-th phase of the
list the loop was given. -/
theorem trajLoop_duration (r a : ℕ) (st : ℚ) (d : ℕ → ℚ) :
    ∀ (ps : List Phase) (idx : ℕ) (ct : ℚ) (k : ℕ) (rc : Record) (p0 : Phase),
      ((trajLoop r a st d idx ct ps).1)[k]? = some rc →
      ps[k]? = some p0 →
      rc.phase_duration = p0.duration := by
  intro ps
  induction ps with
  | nil => intro idx ct k rc p0 h hp; simp [trajLoop_nil] at h
  | cons p rest ih =>
    intro idx ct k rc p0 h hp
    by_cases hs : d idx < p.success_prob
    · rw [trajLoop_cons_success r a st d idx ct p rest hs] at h
      cases k with
      | zero =>
        simp at h hp
        subst h; subst hp; rfl
      | succ k =>
        rw [List.getElem?_cons_succ] at h hp
        exact ih (idx + 1) (ct + p.duration) k rc p0 h hp
    · rw [trajLoop_cons_failure r a st d idx ct p rest hs] at h
      cases k with
      | zero =>
        simp at h hp
        subst h; subst hp; rfl
      | succ k => simp at h

/-- The last record of a nonempty trajectory is terminal: either a FAILURE, or
a SUCCESS on the last phase of the list the loop was given. -/
theorem trajLoop_terminal (r a : ℕ) (st : ℚ) (d : ℕ → ℚ) :
    ∀ (ps : List Phase) (idx : ℕ) (ct : ℚ), ps ≠ [] →
      ∃ rc, ((trajLoop r a st d idx ct ps).1).getLast? = some rc ∧
        (rc.phase_outcome = Outcome.FAILURE ∨
         (rc.phase_outcome = Outcome.SUCCESS ∧
          rc.phase_idx = idx + ps.length - 1)) := by
  intro ps
  induction ps with
  | nil => intro idx ct h; exact absurd rfl h
  | cons p rest ih =>
    intro idx ct _
    by_cases hs : d idx < p.success_prob
    · rw [trajLoop_cons_success r a st d idx ct p rest hs]
      cases rest with
      | nil =>
        refine ⟨⟨r, a, p.name, idx, p.duration, p.success_prob, ct,
          ct + p.duration, Outcome.SUCCESS, st⟩, ?_, Or.inr ⟨rfl, by simp⟩⟩
        simp [trajLoop_nil]
      | cons q rest2 =>
        obtain ⟨rc, hlast, hterm⟩ := ih (idx + 1) (ct + p.duration)
          (List.cons_ne_nil q rest2)
        obtain ⟨h1, t1, heq⟩ :=
          List.exists_cons_of_ne_nil
            (trajLoop_ne_nil r a st d (idx + 1) (ct + p.duration) q rest2)
        refine ⟨rc, ?_, ?_⟩
        · rw [heq, List.getLast?_cons_cons, ← heq, hlast]
        · rcases hterm with hf | ⟨hsu, hix⟩
          · exact Or.inl hf
          · refine Or.inr ⟨hsu, ?_⟩
            simp only [List.length_cons] at hix ⊢
            omega
    · rw [trajLoop_cons_failure r a st d idx ct p rest hs]
      exact ⟨_, rfl, Or.inl rfl⟩

/-- The phase names recorded in the per-asset `phase_results` dict are exactly
the phase names of the records the asset emitted, in order. -/
theorem trajLoop_results_names (r a : ℕ) (st : ℚ) (d : ℕ → ℚ) :
    ∀ (ps : List Phase) (idx : ℕ) (ct : ℚ),
      ((trajLoop r a st d idx ct ps).2).map Prod.fst =
      ((trajLoop r a st d idx ct ps).1).map Record.phase := by
  intro ps
  induction ps with
  | nil => intro idx ct; simp [trajLoop_nil]
  | cons p rest ih =>
    intro idx ct
    by_cases hs : d idx < p.success_prob
    · rw [trajLoop_cons_success r a st d idx ct p rest hs]
      simpa using ih (idx + 1) (ct + p.duration)
    · rw [trajLoop_cons_failure r a st d idx ct p rest hs]
      simp

/-! Lemmas about the assembly performed by `run_simulation`. -/

/-- Filtering the shared record list by an asset id recovers exactly that
asset's own records, because every record is tagged with its asset id and the
asset ids are pairwise distinct. -/
theorem filter_flatMap_asset (i : ℕ) (g : ℕ → List Record)
    (hg : ∀ j rc, rc ∈ g j → rc.asset_id = j) :
    ∀ ids : List ℕ, ids.Nodup → i ∈ ids →
      (ids.flatMap g).filter (fun rc => rc.asset_id == i) = g i := by
  intro ids
  induction ids with
  | nil => intro _ hmem; simp at hmem
  | cons j rest ih =>
    intro hnd hmem
    rw [List.nodup_cons] at hnd
    rw [List.flatMap_cons, List.filter_append]
    rcases List.mem_cons.mp hmem with hj | hrest
    · subst hj
      have h1 : (g i).filter (fun rc => rc.asset_id == i) = g i := by
        rw [List.filter_eq_self]
        intro rc hrc
        simp [hg i rc hrc]
      have h2 : (rest.flatMap g).filter (fun rc => rc.asset_id == i) = [] := by
        rw [List.filter_eq_nil_iff]
        intro rc hrc
        obtain ⟨j2, hj2, hrc2⟩ := List.mem_flatMap.mp hrc
        have : rc.asset_id = j2 := hg j2 rc hrc2
        have : j2 ≠ i := fun he => hnd.1 (he ▸ hj2)
        simp_all
      rw [h1, h2, List.append_nil]
    · have hji : j ≠ i := fun he => hnd.1 (he ▸ hrest)
      have h1 : (g j).filter (fun rc => rc.asset_id == i) = [] := by
        rw [List.filter_eq_nil_iff]
        intro rc hrc
        have : rc.asset_id = j := hg j rc hrc
        simp_all
      rw [h1, List.nil_append]
      exact ih hnd.2 hrest

/-- Looking an asset id up in the assembled results association list yields
that asset's entry. -/
theorem lookup_results (β : Type) (g : ℕ → β) (i : ℕ) :
    ∀ ids : List ℕ, i ∈ ids →
      ((ids.map fun j => (j, g j)).lookup i) = some (g i) := by
  intro ids
  induction ids with
  | nil => intro hmem; simp at hmem
  | cons j rest ih =>
    intro hmem
    by_cases hj : j = i
    · subst hj
      simp [List.lookup]
    · rcases List.mem_cons.mp hmem with h | h
      · exact absurd h.symm hj
      · simp only [List.map_cons, List.lookup]
        have : (i == j) = false := by
          simp only [beq_eq_false_iff_ne, ne_eq]
          exact fun he => hj he.symm
        rw [this]
        exact ih h

/-- With an empty phase table every trajectory emits no records, so the
assembled record list is empty. -/
theorem flatMap_empty_phases (rep : ℕ) (arrivals : ℕ → ℚ) (draws : ℕ → ℕ → ℚ) :
    ∀ ids : List ℕ,
      (ids.flatMap fun i =>
        (asset_trajectory [] rep i (arrivals i) (draws i)).1) = [] := by
  intro ids
  induction ids with
  | nil => rfl
  | cons j rest ih => rw [List.flatMap_cons, ih]; rfl

/-- Filtering the record table returned by `run_simulation` down to one asset
id in range yields exactly that asset's trajectory records. -/
theorem run_simulation_filter_asset (phases : List Phase) (n rep i : ℕ)
    (arrivals : ℕ → ℚ) (draws : ℕ → ℕ → ℚ) (hi1 : 1 ≤ i) (hin : i ≤ n) :
    ((run_simulation phases n rep arrivals draws).2).filter
        (fun r0 => r0.asset_id == i) =
      (asset_trajectory phases rep i (arrivals i) (draws i)).1 := by
  show (((List.range' 1 n).flatMap fun j =>
      (asset_trajectory phases rep j (arrivals j) (draws j)).1).filter
      (fun r0 => r0.asset_id == i)) = _
  apply filter_flatMap_asset
  · intro j rc hrc
    exact trajLoop_asset_id rep j (arrivals j) (draws j) phases 0 (arrivals j) rc hrc
  · exact List.nodup_range' 1 n
  · rw [List.mem_range'_1]; omega

/-! Claim theorems. -/

/-- C1: given an identical phase table, identical population parameters, and
the same base random seed, two single-threaded runs of `run_simulation` with
the same replication id produce identical Record sequences — same number of
records, same order, identical fields.  With a fixed base seed the process-wide
random module yields a fixed draw sequence, so equal seeds are modelled as
equal arrival and draw streams; the embedded run is a pure function of those
streams, hence the outputs coincide. -/
theorem c1_run_simulation_deterministic
    (phases1 phases2 : List Phase) (n1 n2 rep1 rep2 : ℕ)
    (arr1 arr2 : ℕ → ℚ) (d1 d2 : ℕ → ℕ → ℚ)
    (hph : phases1 = phases2) (hn : n1 = n2) (hrep : rep1 = rep2)
    (harr : arr1 = arr2) (hd : d1 = d2) :
    (run_simulation phases1 n1 rep1 arr1 d1).2 =
      (run_simulation phases2 n2 rep2 arr2 d2).2 ∧
    run_simulation phases1 n1 rep1 arr1 d1 =
      run_simulation phases2 n2 rep2 arr2 d2 := by
  subst hph; subst hn; subst hrep; subst harr; subst hd
  exact ⟨rfl, rfl⟩

/-- Witness for C1 at the hard-coded table, 3 assets, replication 7. -/
theorem c1_run_simulation_deterministic_witness :
    SIMULATION_DETAILS_phases = SIMULATION_DETAILS_phases ∧
    (run_simulation SIMULATION_DETAILS_phases 3 7 (fun _ => 2) (fun _ _ => 1)).2 =
      (run_simulation SIMULATION_DETAILS_phases 3 7 (fun _ => 2) (fun _ _ => 1)).2 :=
  ⟨rfl,
   (c1_run_simulation_deterministic SIMULATION_DETAILS_phases SIMULATION_DETAILS_phases
      3 3 7 7 (fun _ => 2) (fun _ => 2) (fun _ _ => 1) (fun _ _ => 1)
      rfl rfl rfl rfl rfl).1⟩

/-- C2 counterexample: called with the hard-coded phase table and an asset
count of zero, `run_simulation` does not fail — it silently returns the empty
results dict and the empty Record table to the caller (simpy4.py lines 76-83
contain no raise, and no `SimulationError` exists in the repository). -/
theorem c2_counterexample :
    run_simulation SIMULATION_DETAILS_phases 0 1 (fun _ => 0) (fun _ _ => 0) =
      ([], []) := rfl

/-- C2 amended: `run_simulation` never raises; with an asset count of zero it
returns the empty results dict and the empty Record table, and with an empty
phase table it returns an empty Record table. -/
theorem c2_empty_inputs_return_empty_table
    (n rep : ℕ) (arrivals : ℕ → ℚ) (draws : ℕ → ℕ → ℚ) :
    run_simulation SIMULATION_DETAILS_phases 0 rep arrivals draws = ([], []) ∧
    (run_simulation [] n rep arrivals draws).2 = [] := by
  refine ⟨rfl, ?_⟩
  show ((List.range' 1 n).flatMap fun i =>
    (asset_trajectory [] rep i (arrivals i) (draws i)).1) = []
  exact flatMap_empty_phases rep arrivals draws (List.range' 1 n)

/-- C3: for every replication and asset — including an asset whose record list
has a single entry — the first record starts at the asset's arrival time,
which is the stored `asset_init_time`, and every later record starts where the
previous one ended.  Each conjunct carries only its own indexing hypothesis,
so the first-record property holds for every asset that emitted any record at
all. -/
theorem c3_record_times_chain (phases : List Phase) (rep aid : ℕ) (st : ℚ)
    (draws : ℕ → ℚ) :
    (∀ r0 : Record,
      ((asset_trajectory phases rep aid st draws).1)[0]? = some r0 →
      r0.phase_start_time = st ∧
      r0.phase_start_time = r0.asset_init_time) ∧
    (∀ (k : ℕ) (r1 r2 : Record),
      ((asset_trajectory phases rep aid st draws).1)[k]? = some r1 →
      ((asset_trajectory phases rep aid st draws).1)[k + 1]? = some r2 →
      r2.phase_start_time = r1.phase_end_time) := by
  constructor
  · intro r0 h0
    have hh := trajLoop_head rep aid st draws phases 0 st r0 h0
    exact ⟨hh.1, hh.1.trans hh.2.symm⟩
  · intro k r1 r2 h1 h2
    exact trajLoop_chain rep aid st draws phases 0 st k r1 r2 h1 h2

/-- Witness for C3 at two concrete runs of the hard-coded table with arrival
0: an asset whose draws are all 1 fails its first phase and has exactly one
record, which starts at the arrival time; an asset whose draws are all 0
succeeds everywhere and its second record starts at the first record's end. -/
theorem c3_record_times_chain_witness :
    (((asset_trajectory SIMULATION_DETAILS_phases 1 1 0 fun _ => 1).1)[0]? =
       some ⟨1, 1, "ID1", 0, 10, 95/100, 0, 10, Outcome.FAILURE, 0⟩ ∧
     (⟨1, 1, "ID1", 0, 10, 95/100, 0, 10, Outcome.FAILURE,
        0⟩ : Record).phase_start_time = 0 ∧
     (⟨1, 1, "ID1", 0, 10, 95/100, 0, 10, Outcome.FAILURE,
        0⟩ : Record).phase_start_time =
       (⟨1, 1, "ID1", 0, 10, 95/100, 0, 10, Outcome.FAILURE,
        0⟩ : Record).asset_init_time) ∧
    (((asset_trajectory SIMULATION_DETAILS_phases 1 1 0 fun _ => 0).1)[0]? =
       some ⟨1, 1, "ID1", 0, 10, 95/100, 0, 10, Outcome.SUCCESS, 0⟩ ∧
     ((asset_trajectory SIMULATION_DETAILS_phases 1 1 0 fun _ => 0).1)[0 + 1]? =
       some ⟨1, 1, "ID2", 1, 12, 90/100, 10, 22, Outcome.SUCCESS, 0⟩ ∧
     (⟨1, 1, "ID2", 1, 12, 90/100, 10, 22, Outcome.SUCCESS,
        0⟩ : Record).phase_start_time =
       (⟨1, 1, "ID1", 0, 10, 95/100, 0, 10, Outcome.SUCCESS,
        0⟩ : Record).phase_end_time) := by
  have hf : ((asset_trajectory SIMULATION_DETAILS_phases 1 1 0 fun _ => 1).1)[0]? =
      some ⟨1, 1, "ID1", 0, 10, 95/100, 0, 10, Outcome.FAILURE, 0⟩ := by
    norm_num [asset_trajectory, trajLoop, SIMULATION_DETAILS_phases]
  have hA := (c3_record_times_chain SIMULATION_DETAILS_phases 1 1 0 (fun _ => 1)).1
    ⟨1, 1, "ID1", 0, 10, 95/100, 0, 10, Outcome.FAILURE, 0⟩ hf
  have h1 : ((asset_trajectory SIMULATION_DETAILS_phases 1 1 0 fun _ => 0).1)[0]? =
      some ⟨1, 1, "ID1", 0, 10, 95/100, 0, 10, Outcome.SUCCESS, 0⟩ := by
    norm_num [asset_trajectory, trajLoop, SIMULATION_DETAILS_phases]
  have h2 : ((asset_trajectory SIMULATION_DETAILS_phases 1 1 0 fun _ => 0).1)[0 + 1]? =
      some ⟨1, 1, "ID2", 1, 12, 90/100, 10, 22, Outcome.SUCCESS, 0⟩ := by
    norm_num [asset_trajectory, trajLoop, SIMULATION_DETAILS_phases]
  have hB := (c3_record_times_chain SIMULATION_DETAILS_phases 1 1 0 (fun _ => 0)).2
    0 ⟨1, 1, "ID1", 0, 10, 95/100, 0, 10, Outcome.SUCCESS, 0⟩
    ⟨1, 1, "ID2", 1, 12, 90/100, 10, 22, Outcome.SUCCESS, 0⟩ h1 h2
  exact ⟨⟨hf, hA.1, hA.2⟩, h1, h2, hB⟩

/-- C4: once an asset's record has outcome FAILURE, it is that asset's last
record — the loop emits nothing afterwards in the replication. -/
theorem c4_failure_is_last_record (phases : List Phase) (rep aid : ℕ) (st : ℚ)
    (draws : ℕ → ℚ) (k : ℕ) (rc : Record)
    (h : ((asset_trajectory phases rep aid st draws).1)[k]? = some rc)
    (hf : rc.phase_outcome = Outcome.FAILURE) :
    ((asset_trajectory phases rep aid st draws).1).length = k + 1 ∧
    ∀ (j : ℕ), k < j →
      ((asset_trajectory phases rep aid st draws).1)[j]? = none := by
  have hl : ((asset_trajectory phases rep aid st draws).1).length = k + 1 :=
    trajLoop_failure_last rep aid st draws phases 0 st k rc h hf
  refine ⟨hl, fun j hj => ?_⟩
  apply List.getElem?_eq_none
  omega

/-- Witness for C4: draws of 1 make the very first phase fail; the record list
has length 1 and index 1 holds nothing. -/
theorem c4_failure_is_last_record_witness :
    ((asset_trajectory SIMULATION_DETAILS_phases 1 1 0 fun _ => 1).1)[0]? =
      some ⟨1, 1, "ID1", 0, 10, 95/100, 0, 10, Outcome.FAILURE, 0⟩ ∧
    ((asset_trajectory SIMULATION_DETAILS_phases 1 1 0 fun _ => 1).1).length = 0 + 1 ∧
    ∀ (j : ℕ), 0 < j →
      ((asset_trajectory SIMULATION_DETAILS_phases 1 1 0 fun _ => 1).1)[j]? = none := by
  have h : ((asset_trajectory SIMULATION_DETAILS_phases 1 1 0 fun _ => 1).1)[0]? =
      some ⟨1, 1, "ID1", 0, 10, 95/100, 0, 10, Outcome.FAILURE, 0⟩ := by
    norm_num [asset_trajectory, trajLoop, SIMULATION_DETAILS_phases]
  have hc := c4_failure_is_last_record SIMULATION_DETAILS_phases 1 1 0 (fun _ => 1)
    0 ⟨1, 1, "ID1", 0, 10, 95/100, 0, 10, Outcome.FAILURE, 0⟩ h rfl
  exact ⟨h, hc.1, hc.2⟩

/-- C5: the k-th record an asset emits is for phase index k — indices run
0, 1, 2, ... in emission order with no gaps and no repeats, strictly in table
order. -/
theorem c5_phase_idx_is_position (phases : List Phase) (rep aid : ℕ) (st : ℚ)
    (draws : ℕ → ℚ) (k : ℕ) (rc : Record)
    (h : ((asset_trajectory phases rep aid st draws).1)[k]? = some rc) :
    rc.phase_idx = k := by
  have := trajLoop_phase_idx rep aid st draws phases 0 st k rc h
  simpa using this

/-- Witness for C5 at the third record of an all-success run. -/
theorem c5_phase_idx_is_position_witness :
    ((asset_trajectory SIMULATION_DETAILS_phases 1 1 0 fun _ => 0).1)[2]? =
      some ⟨1, 1, "Ph1", 2, 52, 5/10, 22, 74, Outcome.SUCCESS, 0⟩ ∧
    (⟨1, 1, "Ph1", 2, 52, 5/10, 22, 74, Outcome.SUCCESS, 0⟩ : Record).phase_idx = 2 := by
  have h : ((asset_trajectory SIMULATION_DETAILS_phases 1 1 0 fun _ => 0).1)[2]? =
      some ⟨1, 1, "Ph1", 2, 52, 5/10, 22, 74, Outcome.SUCCESS, 0⟩ := by
    norm_num [asset_trajectory, trajLoop, SIMULATION_DETAILS_phases]
  exact ⟨h, c5_phase_idx_is_position SIMULATION_DETAILS_phases 1 1 0 (fun _ => 0) 2 _ h⟩

/-- C6: when `run_simulation` returns (the event queue has emptied), every
asset in range has produced at least one Record, and its last Record is either
a FAILURE at some phase or a SUCCESS on the final phase of the table. -/
theorem c6_every_asset_resolved (phases : List Phase) (n rep i : ℕ)
    (arrivals : ℕ → ℚ) (draws : ℕ → ℕ → ℚ)
    (hph : phases ≠ []) (hi1 : 1 ≤ i) (hin : i ≤ n) :
    (((run_simulation phases n rep arrivals draws).2).filter
        (fun r0 => r0.asset_id == i)) ≠ [] ∧
    ∃ rc : Record,
      (((run_simulation phases n rep arrivals draws).2).filter
          (fun r0 => r0.asset_id == i)).getLast? = some rc ∧
      (rc.phase_outcome = Outcome.FAILURE ∨
       (rc.phase_outcome = Outcome.SUCCESS ∧
        rc.phase_idx = phases.length - 1)) := by
  rw [run_simulation_filter_asset phases n rep i arrivals draws hi1 hin]
  obtain ⟨p, rest, hps⟩ := List.exists_cons_of_ne_nil hph
  constructor
  · show (trajLoop rep i (arrivals i) (draws i) 0 (arrivals i) phases).1 ≠ []
    rw [hps]
    exact trajLoop_ne_nil rep i (arrivals i) (draws i) 0 (arrivals i) p rest
  · obtain ⟨rc, hlast, hterm⟩ :=
      trajLoop_terminal rep i (arrivals i) (draws i) phases 0 (arrivals i) hph
    refine ⟨rc, hlast, ?_⟩
    rcases hterm with hf | ⟨hsu, hix⟩
    · exact Or.inl hf
    · exact Or.inr ⟨hsu, by omega⟩

/-- Witness for C6: two assets, all phase draws 1, so each asset fails its
first phase and ends with a FAILURE record. -/
theorem c6_every_asset_resolved_witness :
    SIMULATION_DETAILS_phases ≠ [] ∧ (1 : ℕ) ≤ 1 ∧ (1 : ℕ) ≤ 2 ∧
    ((((run_simulation SIMULATION_DETAILS_phases 2 5 (fun _ => 0) fun _ _ => 1).2).filter
        (fun r0 => r0.asset_id == 1)) ≠ [] ∧
     ∃ rc : Record,
       (((run_simulation SIMULATION_DETAILS_phases 2 5 (fun _ => 0) fun _ _ => 1).2).filter
           (fun r0 => r0.asset_id == 1)).getLast? = some rc ∧
       (rc.phase_outcome = Outcome.FAILURE ∨
        (rc.phase_outcome = Outcome.SUCCESS ∧
         rc.phase_idx = SIMULATION_DETAILS_phases.length - 1))) :=
  ⟨by simp [SIMULATION_DETAILS_phases], le_refl 1, by norm_num,
   c6_every_asset_resolved SIMULATION_DETAILS_phases 2 5 1 (fun _ => 0) (fun _ _ => 1)
     (by simp [SIMULATION_DETAILS_phases]) (le_refl 1) (by norm_num)⟩

/-- C7: every record's end time is its start time plus that phase's duration;
in particular, with a two-phase table of durations 10 and 5, success
probability 1 each, and a single asset arriving at time 3, exactly two SUCCESS
records are produced, (start 3, end 13) and (start 13, end 18), for any phase
draws in the unit interval. -/
theorem c7_end_time_and_scenario (phases : List Phase) (rep aid : ℕ) (st : ℚ)
    (draws : ℕ → ℚ) (k : ℕ) (rc : Record) (p0 : Phase)
    (h : ((asset_trajectory phases rep aid st draws).1)[k]? = some rc)
    (hp : phases[k]? = some p0) :
    rc.phase_end_time = rc.phase_start_time + rc.phase_duration ∧
    rc.phase_duration = p0.duration ∧
    ∀ dscen : ℕ → ℚ, (∀ j, dscen j < 1) →
      (asset_trajectory [⟨"P1", 10, 1⟩, ⟨"P2", 5, 1⟩] 1 1 3 dscen).1 =
        [⟨1, 1, "P1", 0, 10, 1, 3, 13, Outcome.SUCCESS, 3⟩,
         ⟨1, 1, "P2", 1, 5, 1, 13, 18, Outcome.SUCCESS, 3⟩] := by
  refine ⟨trajLoop_end_time rep aid st draws phases 0 st k rc h,
          trajLoop_duration rep aid st draws phases 0 st k rc p0 h hp, ?_⟩
  intro dscen hd
  norm_num [asset_trajectory, trajLoop, hd 0, hd 1]

/-- Witness for C7 at the second record of an all-success run of the
hard-coded table. -/
theorem c7_end_time_and_scenario_witness :
    ((asset_trajectory SIMULATION_DETAILS_phases 1 1 0 fun _ => 0).1)[1]? =
      some ⟨1, 1, "ID2", 1, 12, 90/100, 10, 22, Outcome.SUCCESS, 0⟩ ∧
    SIMULATION_DETAILS_phases[1]? = some ⟨"ID2", 12, 90/100⟩ ∧
    ((22 : ℚ) = 10 + 12 ∧ (12 : ℚ) = 12 ∧
     ∀ dscen : ℕ → ℚ, (∀ j, dscen j < 1) →
       (asset_trajectory [⟨"P1", 10, 1⟩, ⟨"P2", 5, 1⟩] 1 1 3 dscen).1 =
         [⟨1, 1, "P1", 0, 10, 1, 3, 13, Outcome.SUCCESS, 3⟩,
          ⟨1, 1, "P2", 1, 5, 1, 13, 18, Outcome.SUCCESS, 3⟩]) := by
  have h : ((asset_trajectory SIMULATION_DETAILS_phases 1 1 0 fun _ => 0).1)[1]? =
      some ⟨1, 1, "ID2", 1, 12, 90/100, 10, 22, Outcome.SUCCESS, 0⟩ := by
    norm_num [asset_trajectory, trajLoop, SIMULATION_DETAILS_phases]
  have hp : SIMULATION_DETAILS_phases[1]? = some ⟨"ID2", 12, 90/100⟩ := rfl
  have hc := c7_end_time_and_scenario SIMULATION_DETAILS_phases 1 1 0 (fun _ => 0)
    1 ⟨1, 1, "ID2", 1, 12, 90/100, 10, 22, Outcome.SUCCESS, 0⟩ ⟨"ID2", 12, 90/100⟩ h hp
  exact ⟨h, hp, by norm_num, by norm_num, hc.2.2⟩

/-- C8: in the cohort variant, an asset's arrival time is
`year * 52 + u` with `year = (asset_id - 1) // ASSETS_PER_YEAR` and `u` the
uniform draw in `[0, 52)`, so the arrival lies inside the asset's 52-week
year window. -/
theorem c8_cohort_arrival_in_year_window (asset_id : ℕ) (u : ℚ)
    (hu0 : 0 ≤ u) (hu1 : u < 52) :
    cohortStartTime asset_id u =
      (((asset_id - 1) / ASSETS_PER_YEAR : ℕ) : ℚ) * 52 + u ∧
    ((assetYear asset_id : ℕ) : ℚ) * 52 ≤ cohortStartTime asset_id u ∧
    cohortStartTime asset_id u < (((assetYear asset_id : ℕ) : ℚ) + 1) * 52 := by
  refine ⟨rfl, ?_, ?_⟩
  · show ((assetYear asset_id : ℕ) : ℚ) * 52 ≤
      ((assetYear asset_id : ℕ) : ℚ) * 52 + u
    linarith
  · show ((assetYear asset_id : ℕ) : ℚ) * 52 + u <
      (((assetYear asset_id : ℕ) : ℚ) + 1) * 52
    have : (((assetYear asset_id : ℕ) : ℚ) + 1) * 52 =
      ((assetYear asset_id : ℕ) : ℚ) * 52 + 52 := by ring
    linarith

/-- Witness for C8: global asset 51 belongs to year 1; with draw 10 it arrives
at week 62, inside the window [52, 104). -/
theorem c8_cohort_arrival_in_year_window_witness :
    (0 : ℚ) ≤ 10 ∧ (10 : ℚ) < 52 ∧
    (cohortStartTime 51 10 =
      (((51 - 1) / ASSETS_PER_YEAR : ℕ) : ℚ) * 52 + 10 ∧
     ((assetYear 51 : ℕ) : ℚ) * 52 ≤ cohortStartTime 51 10 ∧
     cohortStartTime 51 10 < (((assetYear 51 : ℕ) : ℚ) + 1) * 52) :=
  ⟨by norm_num, by norm_num,
   c8_cohort_arrival_in_year_window 51 10 (by norm_num) (by norm_num)⟩

/-- C9 counterexample: a phase table violating the validity conditions (a
phase with duration 0 and success probability 2) is accepted unchanged by the
source's construction — no validation runs and no ConfigurationError is
raised. -/
theorem c9_counterexample :
    specValidPhaseTable [⟨"X", 0, 2⟩] = false ∧
    loadPhaseTable [⟨"X", 0, 2⟩] = ConfigResult.ok [⟨"X", 0, 2⟩] := by
  refine ⟨?_, rfl⟩
  norm_num [specValidPhaseTable]

/-- C9 amended: the source performs no phase-table validation — construction
accepts any table unchanged and never fails — while the hard-coded table does
satisfy all the validity conditions the spec lists (durations positive,
probabilities in [0,1], names unique and non-empty, at least one phase). -/
theorem c9_no_validation_but_table_valid :
    (∀ ps : List Phase, loadPhaseTable ps = ConfigResult.ok ps) ∧
    specValidPhaseTable SIMULATION_DETAILS_phases = true := by
  refine ⟨fun ps => rfl, ?_⟩
  norm_num [specValidPhaseTable, SIMULATION_DETAILS_phases]
  decide

/-- C10: the results dict returned by `run_simulation` has exactly one entry
per asset id 1..num_assets (present even if the asset failed its first phase),
and an asset's entry lists exactly the phases for which that asset emitted a
Record. -/
theorem c10_results_one_entry_per_asset (phases : List Phase) (n rep i : ℕ)
    (arrivals : ℕ → ℚ) (draws : ℕ → ℕ → ℚ) (hi1 : 1 ≤ i) (hin : i ≤ n) :
    ((run_simulation phases n rep arrivals draws).1).map Prod.fst =
      List.range' 1 n ∧
    ∃ pres : List (String × PhaseResult),
      ((run_simulation phases n rep arrivals draws).1).lookup i = some pres ∧
      pres.map Prod.fst =
        (((run_simulation phases n rep arrivals draws).2).filter
            (fun r0 => r0.asset_id == i)).map Record.phase := by
  constructor
  · show ((List.range' 1 n).map fun j =>
        (j, (asset_trajectory phases rep j (arrivals j) (draws j)).2)).map
        Prod.fst = List.range' 1 n
    rw [List.map_map]
    exact List.map_id'' (fun x => rfl) (List.range' 1 n)
  · refine ⟨(asset_trajectory phases rep i (arrivals i) (draws i)).2, ?_, ?_⟩
    · show ((List.range' 1 n).map fun j =>
          (j, (asset_trajectory phases rep j (arrivals j) (draws j)).2)).lookup i =
          some (asset_trajectory phases rep i (arrivals i) (draws i)).2
      apply lookup_results
      rw [List.mem_range'_1]; omega
    · rw [run_simulation_filter_asset phases n rep i arrivals draws hi1 hin]
      exact trajLoop_results_names rep i (arrivals i) (draws i) phases 0 (arrivals i)

/-- Witness for C10: two assets, asset 1 fails its very first phase (all draws
1) yet has its entry in the results dict. -/
theorem c10_results_one_entry_per_asset_witness :
    (1 : ℕ) ≤ 1 ∧ (1 : ℕ) ≤ 2 ∧
    (((run_simulation SIMULATION_DETAILS_phases 2 5 (fun _ => 0) fun _ _ => 1).1).map
        Prod.fst = List.range' 1 2 ∧
     ∃ pres : List (String × PhaseResult),
       ((run_simulation SIMULATION_DETAILS_phases 2 5 (fun _ => 0) fun _ _ => 1).1).lookup 1 =
         some pres ∧
       pres.map Prod.fst =
         (((run_simulation SIMULATION_DETAILS_phases 2 5 (fun _ => 0) fun _ _ => 1).2).filter
             (fun r0 => r0.asset_id == 1)).map Record.phase) :=
  ⟨le_refl 1, by norm_num,
   c10_results_one_entry_per_asset SIMULATION_DETAILS_phases 2 5 1
     (fun _ => 0) (fun _ _ => 1) (le_refl 1) (by norm_num)⟩

end PFSimPy
